import Mathlib

/-!
Verification of the MEU logistics chat application (src/app.py).

The program loads a CSV file once, interpolates it into a fixed system-prompt
template, and on each chat turn reshapes the (user, assistant) history into a
role-tagged message list, calls a remote chat-completion provider, and returns
the first choice's text. The definitions below shallowly embed that code:
strings stay strings, the message list is a Lean list, and the fallible
`response.choices[0]` indexing becomes an `Option`.
-/

namespace MEUChat

/-- Message roles used by the chat-completion wire format. -/
inductive Role where
  | system
  | user
  | assistant
deriving DecidableEq, Repr

/-- A role-tagged message, as built by the dict literals in `chat`
(src/app.py lines 23-27). -/
structure Message where
  role : Role
  content : String
deriving DecidableEq, Repr

/-- The `SYSTEM_PROMPT` f-string of src/app.py lines 13-20, as a function of
the dataset text `DATA` loaded at startup. -/
def buildSystemPrompt (dataset : String) : String :=
  "You are a logistics analyst for Marine Expeditionary Unit (MEU) operations.\n\nUse the data below to answer questions. Always reference specific numbers with units.\n\n--- MEU LOGISTICS DATA ---\n"
    ++ dataset ++ "\n--- END DATA ---\n"

/-- The message-list construction inside `chat` (src/app.py lines 23-27):
start from the system message, loop over the history appending a user and an
assistant message per turn, then append the new user message. -/
def buildMessages (systemPrompt : String) (history : List (String × String))
    (newMessage : String) : List Message :=
  let messages : List Message := [⟨Role.system, systemPrompt⟩]
  let messages := history.foldl
    (fun acc turn => acc ++ [⟨Role.user, turn.1⟩, ⟨Role.assistant, turn.2⟩])
    messages
  messages ++ [⟨Role.user, newMessage⟩]

/-- The message content of one returned choice. -/
structure ChoiceMessage where
  content : String
deriving DecidableEq, Repr

/-- One choice of a provider response. -/
structure Choice where
  message : ChoiceMessage
deriving DecidableEq, Repr

/-- A provider response: a list of choices. -/
structure Response where
  choices : List Choice
deriving DecidableEq, Repr

/-- The extraction `response.choices[0].message.content` of src/app.py
line 33; indexing an empty list raises in Python, embedded as `none`. -/
def extractContent (response : Response) : Option String :=
  (response.choices[0]?).map fun c => c.message.content

/-- The completion call plus extraction (src/app.py lines 29-33), with the
remote provider abstracted as a function from the sent messages to a
response. -/
def complete (provider : List Message → Response)
    (messages : List Message) : Option String :=
  extractContent (provider messages)

/-- The `chat` function (src/app.py lines 22-33), parametrized by the loaded
dataset and the remote provider. -/
def chat (dataset : String) (provider : List Message → Response)
    (message : String) (history : List (String × String)) : Option String :=
  complete provider (buildMessages (buildSystemPrompt dataset) history message)

/-- The conversation state owned by the external chat surface. -/
structure SurfaceState where
  history : List (String × String)
deriving DecidableEq, Repr

/-- One chat turn as driven by the surface, in state-passing form: the core
reads the supplied history and performs no write to it (src/app.py lines
22-27 only iterate over `history` and append to the fresh `messages` list). -/
def chatStep (dataset : String) (provider : List Message → Response)
    (message : String) (st : SurfaceState) : Option String × SurfaceState :=
  (chat dataset provider message st.history, st)

/-- The two messages contributed by one history turn. -/
def turnMessages (turn : String × String) : List Message :=
  [⟨Role.user, turn.1⟩, ⟨Role.assistant, turn.2⟩]

theorem foldl_turns (h : List (String × String)) (acc : List Message) :
    h.foldl (fun acc turn =>
        acc ++ [⟨Role.user, turn.1⟩, ⟨Role.assistant, turn.2⟩]) acc
      = acc ++ h.flatMap turnMessages := by
  induction h generalizing acc with
  | nil => simp
  | cons p t ih => simp [List.foldl_cons, ih, turnMessages]

theorem buildMessages_eq (sp : String) (h : List (String × String))
    (m : String) :
    buildMessages sp h m =
      ⟨Role.system, sp⟩ :: (h.flatMap turnMessages ++ [⟨Role.user, m⟩]) := by
  simp [buildMessages, foldl_turns]

theorem bind_turns_length (h : List (String × String)) :
    (h.flatMap turnMessages).length = 2 * h.length := by
  induction h with
  | nil => rfl
  | cons p t ih => simp [turnMessages] at *; omega

theorem buildMessages_length (sp : String) (h : List (String × String))
    (m : String) :
    (buildMessages sp h m).length = 2 * h.length + 2 := by
  rw [buildMessages_eq]
  simp only [List.length_cons, List.length_append, List.length_nil,
    bind_turns_length]

theorem bind_turns_getElem (h : List (String × String)) (i : Nat)
    (hi : i < h.length) :
    (h.flatMap turnMessages)[2 * i]? = some ⟨Role.user, (h.get ⟨i, hi⟩).1⟩ ∧
    (h.flatMap turnMessages)[2 * i + 1]? =
      some ⟨Role.assistant, (h.get ⟨i, hi⟩).2⟩ := by
  induction h generalizing i with
  | nil => simp at hi
  | cons p t ih =>
    cases i with
    | zero => simp [turnMessages]
    | succ j =>
      have hj : j < t.length := by simpa using Nat.lt_of_succ_lt_succ hi
      have e1 : 2 * (j + 1) = 2 * j + 1 + 1 := by omega
      rw [e1]
      simp only [List.flatMap_cons, turnMessages, List.cons_append,
        List.nil_append, List.getElem?_cons_succ, List.get_cons_succ]
      exact ih j hj

/-- The alternating user/assistant role pattern contributed by `n` turns. -/
def rolePattern : Nat → List Role
  | 0 => []
  | n + 1 => Role.user :: Role.assistant :: rolePattern n

theorem bind_turns_map_role (h : List (String × String)) :
    (h.flatMap turnMessages).map Message.role = rolePattern h.length := by
  induction h with
  | nil => rfl
  | cons p t ih => simp [turnMessages, rolePattern, List.flatMap_cons, ih]

theorem rolePattern_length (n : Nat) : (rolePattern n).length = 2 * n := by
  induction n with
  | zero => rfl
  | succ k ih => simp [rolePattern, ih]; omega

theorem rolePattern_getElem (n j : Nat) (hj : j < 2 * n) :
    (rolePattern n)[j]? =
      some (if j % 2 = 0 then Role.user else Role.assistant) := by
  induction n generalizing j with
  | zero => omega
  | succ k ih =>
    match j with
    | 0 => simp [rolePattern]
    | 1 => norm_num [rolePattern]
    | l + 1 + 1 =>
      have hl : l < 2 * k := by omega
      have hmod : (l + 1 + 1) % 2 = l % 2 := by omega
      simp only [rolePattern, List.getElem?_cons_succ, hmod]
      exact ih l hl

theorem buildMessages_map_role (sp m : String) (h : List (String × String)) :
    (buildMessages sp h m).map Message.role =
      Role.system :: (rolePattern h.length ++ [Role.user]) := by
  rw [buildMessages_eq]
  simp [bind_turns_map_role]

theorem buildMessages_role_at (sp m : String) (h : List (String × String))
    (i : Nat) (h1 : 1 ≤ i) (h2 : i < 2 * h.length + 2) :
    (buildMessages sp h m)[i]?.map Message.role =
      some (if i % 2 = 1 then Role.user else Role.assistant) := by
  have hmap := buildMessages_map_role sp m h
  have hget : ((buildMessages sp h m).map Message.role)[i]? =
      (Role.system :: (rolePattern h.length ++ [Role.user]))[i]? := by
    rw [hmap]
  rw [List.getElem?_map] at hget
  obtain ⟨j, rfl⟩ : ∃ j, i = j + 1 := ⟨i - 1, by omega⟩
  rw [List.getElem?_cons_succ] at hget
  by_cases hcase : j < 2 * h.length
  · rw [List.getElem?_append_left (by rw [rolePattern_length]; exact hcase),
      rolePattern_getElem h.length j hcase] at hget
    by_cases hp : j % 2 = 0
    · have hp1 : (j + 1) % 2 = 1 := by omega
      rw [hget, if_pos hp, if_pos hp1]
    · have hp1 : ¬((j + 1) % 2 = 1) := by omega
      rw [hget, if_neg hp, if_neg hp1]
  · have hj : j = 2 * h.length := by omega
    rw [List.getElem?_append_right (by rw [rolePattern_length]; omega)] at hget
    rw [rolePattern_length] at hget
    have hz : j - 2 * h.length = 0 := by omega
    rw [hz] at hget
    simp only [List.getElem?_cons_zero] at hget
    have hp1 : (j + 1) % 2 = 1 := by omega
    rw [hget, if_pos hp1]

theorem buildMessages_getElem_turn (sp m : String)
    (h : List (String × String)) (i : Nat) (hi : i < h.length) :
    (buildMessages sp h m)[2 * i + 1]? = some ⟨Role.user, (h.get ⟨i, hi⟩).1⟩ ∧
    (buildMessages sp h m)[2 * i + 2]? =
      some ⟨Role.assistant, (h.get ⟨i, hi⟩).2⟩ := by
  obtain ⟨hu, ha⟩ := bind_turns_getElem h i hi
  rw [buildMessages_eq]
  constructor
  · rw [List.getElem?_cons_succ,
      List.getElem?_append_left (by rw [bind_turns_length]; omega)]
    exact hu
  · have e : 2 * i + 2 = (2 * i + 1) + 1 := by omega
    rw [e, List.getElem?_cons_succ,
      List.getElem?_append_left (by rw [bind_turns_length]; omega)]
    exact ha

/-- Claim C1: for every history of length N and every new message, the
message sequence built by `chat` has exactly 2N + 2 entries, starts with the
system message, alternates user/assistant roles from index 1 with the last
role being user, and for empty history is exactly `[system, user]`. -/
theorem chat_message_sequence_shape (sp m : String)
    (h : List (String × String)) :
    (buildMessages sp h m).length = 2 * h.length + 2 ∧
    (buildMessages sp h m)[0]?.map Message.role = some Role.system ∧
    (∀ i, 1 ≤ i → i < 2 * h.length + 2 →
      (buildMessages sp h m)[i]?.map Message.role =
        some (if i % 2 = 1 then Role.user else Role.assistant)) ∧
    (buildMessages sp h m)[2 * h.length + 1]?.map Message.role =
      some Role.user ∧
    buildMessages sp [] m = [⟨Role.system, sp⟩, ⟨Role.user, m⟩] := by
  refine ⟨buildMessages_length sp h m, ?_,
    fun i h1 h2 => buildMessages_role_at sp m h i h1 h2, ?_, rfl⟩
  · rw [buildMessages_eq]
    simp
  · have hlast := buildMessages_role_at sp m h (2 * h.length + 1)
      (by omega) (by omega)
    have hmod : (2 * h.length + 1) % 2 = 1 := by omega
    rw [hlast, if_pos hmod]

theorem chat_message_sequence_shape_witness :
    (buildMessages "s" [("u", "a")] "m")[3]?.map Message.role =
      some Role.user := by
  have hmain := chat_message_sequence_shape "s" "m" [("u", "a")]
  simpa using hmain.2.2.1 3 (by decide) (by decide)

/-- Claim C2: the i-th history turn contributes a user message with exactly
its user text at index 2i + 1 and an assistant message with exactly its
assistant text at index 2i + 2, so history order is preserved with text
content unmodified. -/
theorem chat_preserves_turn_order (sp m : String)
    (h : List (String × String)) (i : Nat) (hi : i < h.length) :
    (buildMessages sp h m)[2 * i + 1]? = some ⟨Role.user, (h.get ⟨i, hi⟩).1⟩ ∧
    (buildMessages sp h m)[2 * i + 2]? =
      some ⟨Role.assistant, (h.get ⟨i, hi⟩).2⟩ :=
  buildMessages_getElem_turn sp m h i hi

theorem chat_preserves_turn_order_witness :
    (buildMessages "s" [("u1", "a1"), ("u2", "a2")] "m")[3]? =
      some ⟨Role.user, "u2"⟩ := by
  have hmain := chat_preserves_turn_order "s" "m"
    [("u1", "a1"), ("u2", "a2")] 1 (by decide)
  simpa using hmain.1

/-- Claim C3: the system prompt built from a dataset D contains D as a
contiguous substring, is deterministic in D, and for the empty dataset is
still the (non-empty) fixed template text. -/
theorem systemPrompt_dataset_substring (d : String) :
    (∃ pre post, buildSystemPrompt d = pre ++ d ++ post) ∧
    (∀ d2, d = d2 → buildSystemPrompt d = buildSystemPrompt d2) ∧
    buildSystemPrompt "" =
      "You are a logistics analyst for Marine Expeditionary Unit (MEU) operations.\n\nUse the data below to answer questions. Always reference specific numbers with units.\n\n--- MEU LOGISTICS DATA ---\n\n--- END DATA ---\n" ∧
    buildSystemPrompt "" ≠ "" := by
  refine ⟨⟨"You are a logistics analyst for Marine Expeditionary Unit (MEU) operations.\n\nUse the data below to answer questions. Always reference specific numbers with units.\n\n--- MEU LOGISTICS DATA ---\n",
      "\n--- END DATA ---\n", rfl⟩, ?_, ?_, ?_⟩
  · intro d2 hd
    rw [hd]
  · rfl
  · decide

theorem systemPrompt_dataset_substring_witness :
    buildSystemPrompt "CSV" = buildSystemPrompt "CSV" :=
  (systemPrompt_dataset_substring "CSV").2.1 "CSV" rfl

/-- Claim C4: extraction of the first choice is a pass-through: if the
provider's response has a first choice whose message content is S, `chat`'s
completion step returns exactly S. -/
theorem complete_pass_through (provider : List Message → Response)
    (msgs : List Message) (s : String) (c : Choice) (rest : List Choice)
    (hresp : provider msgs = ⟨c :: rest⟩) (hc : c.message.content = s) :
    complete provider msgs = some s := by
  simp [complete, extractContent, hresp, hc]

theorem complete_pass_through_witness :
    complete (fun _ => ⟨[⟨⟨"S"⟩⟩]⟩) [] = some "S" :=
  complete_pass_through (fun _ => ⟨[⟨⟨"S"⟩⟩]⟩) [] "S" ⟨⟨"S"⟩⟩ [] rfl rfl

/-- Claim C5: when the provider response has an empty choices list, `chat`
results in an error (embedded as `none`) with no recovery, and the chat
surface state is unchanged by the failed turn. -/
theorem chat_empty_choices_error (dataset m : String)
    (provider : List Message → Response) (h : List (String × String))
    (hempty : provider (buildMessages (buildSystemPrompt dataset) h m)
      = ⟨[]⟩) :
    chat dataset provider m h = none ∧
    (chatStep dataset provider m ⟨h⟩).2 = ⟨h⟩ := by
  refine ⟨?_, rfl⟩
  simp [chat, complete, extractContent, hempty]

theorem chat_empty_choices_error_witness :
    chat "d" (fun _ => ⟨[]⟩) "m" [] = none :=
  (chat_empty_choices_error "d" "m" (fun _ => ⟨[]⟩) [] rfl).1

/-- Claim C6: the system prompt is a pure function of the dataset, written
by no operation of the core, and every invocation of `chat` puts the pair
(system, prompt) with this identical prompt string first in the built
message sequence. -/
theorem systemPrompt_shared_first_message (dataset m : String)
    (h : List (String × String)) :
    (buildMessages (buildSystemPrompt dataset) h m)[0]? =
      some ⟨Role.system, buildSystemPrompt dataset⟩ := by
  rw [buildMessages_eq]
  simp

/-- Claim C7: message building is total: for every system prompt, every
history (including empty) and every new message (including the empty
string), it succeeds and yields the full well-formed sequence, with no
validation rejecting any input. -/
theorem buildMessages_total (sp m : String) (h : List (String × String)) :
    (buildMessages sp h m).length = 2 * h.length + 2 ∧
    (buildMessages sp h m)[0]? = some ⟨Role.system, sp⟩ ∧
    (buildMessages sp h m)[2 * h.length + 1]? = some ⟨Role.user, m⟩ := by
  refine ⟨buildMessages_length sp h m, ?_, ?_⟩
  · rw [buildMessages_eq]
    simp
  · rw [buildMessages_eq, List.getElem?_cons_succ,
      List.getElem?_append_right (by rw [bind_turns_length])]
    rw [bind_turns_length, Nat.sub_self]
    rfl

/-- Claim C8: `chat` treats the supplied history as read-only input: after a
turn the surface state, its history list, and the result computed from that
history are exactly those of the original state. -/
theorem chat_history_read_only (dataset m : String)
    (provider : List Message → Response) (st : SurfaceState) :
    (chatStep dataset provider m st).2 = st ∧
    (chatStep dataset provider m st).2.history = st.history ∧
    (chatStep dataset provider m st).1 = chat dataset provider m st.history :=
  ⟨rfl, rfl, rfl⟩

/-- Claim C9: message building is deterministic as a two-run property: two
invocations with equal system prompt, history and new message build
byte-identical message sequences. -/
theorem buildMessages_two_run_deterministic (sp1 sp2 m1 m2 : String)
    (h1 h2 : List (String × String))
    (hsp : sp1 = sp2) (hh : h1 = h2) (hm : m1 = m2) :
    buildMessages sp1 h1 m1 = buildMessages sp2 h2 m2 := by
  rw [hsp, hh, hm]

theorem buildMessages_two_run_deterministic_witness :
    buildMessages "s" [("u", "a")] "m" = buildMessages "s" [("u", "a")] "m" :=
  buildMessages_two_run_deterministic "s" "s" "m" "m"
    [("u", "a")] [("u", "a")] rfl rfl rfl

/-- Claim C10: no filtering of empty content: even when some turn texts are
the empty string, each turn still contributes its user and assistant
messages at indices 2i + 1 and 2i + 2, the length is 2N + 2, and the role
pattern still alternates. -/
theorem empty_content_not_filtered (sp m : String)
    (h : List (String × String))
    (_hsome : h.any (fun turn => turn.1 == "" || turn.2 == "") = true) :
    (buildMessages sp h m).length = 2 * h.length + 2 ∧
    (∀ i (hi : i < h.length),
      (buildMessages sp h m)[2 * i + 1]? =
        some ⟨Role.user, (h.get ⟨i, hi⟩).1⟩ ∧
      (buildMessages sp h m)[2 * i + 2]? =
        some ⟨Role.assistant, (h.get ⟨i, hi⟩).2⟩) ∧
    (∀ i, 1 ≤ i → i < 2 * h.length + 2 →
      (buildMessages sp h m)[i]?.map Message.role =
        some (if i % 2 = 1 then Role.user else Role.assistant)) :=
  ⟨buildMessages_length sp h m,
    fun i hi => buildMessages_getElem_turn sp m h i hi,
    fun i h1 h2 => buildMessages_role_at sp m h i h1 h2⟩

theorem empty_content_not_filtered_witness :
    (buildMessages "s" [("", "")] "m").length = 4 := by
  have hmain := empty_content_not_filtered "s" "m" [("", "")] (by decide)
  simpa using hmain.1

end MEUChat
